import Mathlib

/-!
# Verification of the drizzle-sqlite-vec core

Shallow embedding of the vector codec (`src/vector.ts`), the SQL fragment
builders (`src/query.ts`), the vec0 schema builder (`src/virtual-table.ts`),
the DML helpers (`src/index.ts` DML part) and the pure type/math utilities
(`src/types.ts`), together with proofs about them.

JavaScript numbers are modelled as exact rationals plus the three
non-finite values (every finite IEEE-754 double is a rational, so theorems
quantified over `ℚ` cover every double).  The float64 → float32 conversion
performed by `new Float32Array(...)` is modelled bit-precisely with
round-to-nearest, ties-to-even, as IEEE 754 and the ECMAScript spec demand.
-/

namespace DrizzleSqliteVec

/-- A JavaScript number: a finite value (exact rational) or one of the three
non-finite values.  `Float32Array` conversion and the codec never depend on
more structure than this. -/
inductive JsNum where
  | finite (q : ℚ)
  | posInf
  | negInf
  | nan
  deriving DecidableEq, Repr

/-- Round a rational to the nearest integer, ties to even
(the IEEE-754 `roundTiesToEven` attribute used by float64→float32
conversion). -/
def roundHalfEven (q : ℚ) : ℤ :=
  let f := ⌊q⌋
  let r := q - f
  if r < 1/2 then f
  else if 1/2 < r then f + 1
  else if f % 2 = 0 then f else f + 1

/-- `⌊log₂ q⌋` for a positive rational, computed from `Nat.log2` of the
numerator and denominator followed by a one-step correction. -/
def floorLog2 (q : ℚ) : ℤ :=
  let g : ℤ := (Nat.log2 q.num.toNat : ℤ) - (Nat.log2 q.den : ℤ)
  if (2 : ℚ) ^ g ≤ q then g else g - 1

/-- IEEE-754 binary32 bit pattern (as a natural number < 2^32) obtained by
converting a rational (a float64 value) to float32 with round-to-nearest,
ties-to-even — the conversion `new Float32Array([q])` performs. -/
def bits32OfRat (q : ℚ) : ℕ :=
  if q = 0 then 0
  else
    let s : ℕ := if q < 0 then 2 ^ 31 else 0
    let a : ℚ := |q|
    let e : ℤ := floorLog2 a
    if e < -126 then
      -- subnormal range (a rounded mantissa of 2^23 lands on the minimal
      -- normal value, which the bit arithmetic below encodes correctly)
      s + (roundHalfEven (a * (2 : ℚ) ^ (149 : ℤ))).toNat
    else
      let n : ℤ := roundHalfEven (a * (2 : ℚ) ^ ((23 : ℤ) - e))
      let e2 : ℤ := if n = 2 ^ 24 then e + 1 else e
      let n2 : ℤ := if n = 2 ^ 24 then 2 ^ 23 else n
      if 127 < e2 then s + 0x7F800000
      else s + (e2 + 127).toNat * 2 ^ 23 + (n2 - 2 ^ 23).toNat

/-- Bit pattern of a whole `JsNum`.  `Float32Array` canonicalises every NaN
to the quiet NaN pattern; infinities keep their sign. -/
def f32BitsOfJs : JsNum → ℕ
  | .finite q => bits32OfRat q
  | .posInf => 0x7F800000
  | .negInf => 0xFF800000
  | .nan => 0x7FC00000

/-- Interpret a 32-bit pattern as an IEEE-754 binary32 value, widened to a
`JsNum` (this is what reading a `Float32Array` element yields). -/
def jsOfBits32 (b : ℕ) : JsNum :=
  let s : ℕ := b / 2 ^ 31 % 2
  let e : ℕ := b / 2 ^ 23 % 256
  let m : ℕ := b % 2 ^ 23
  if e = 255 then
    if m = 0 then (if s = 1 then JsNum.negInf else JsNum.posInf) else JsNum.nan
  else
    let mag : ℚ :=
      if e = 0 then (m : ℚ) * (2 : ℚ) ^ (-149 : ℤ)
      else ((2 ^ 23 + m : ℕ) : ℚ) * (2 : ℚ) ^ ((e : ℤ) - 150)
    JsNum.finite (if s = 1 then -mag else mag)

/-- Little-endian byte decomposition of a 32-bit pattern, as
`Buffer.from(float32.buffer)` exposes it on the (little-endian) platforms
Node runs on. -/
def bytesLE4 (b : ℕ) : List ℕ :=
  [b % 256, b / 256 % 256, b / 256 ^ 2 % 256, b / 256 ^ 3 % 256]

/-- Recompose a 4-byte little-endian group into its 32-bit value. -/
def leVal4 : List ℕ → ℕ
  | [b0, b1, b2, b3] => b0 + b1 * 256 + b2 * 256 ^ 2 + b3 * 256 ^ 3
  | _ => 0

/-- `serializeVector` (src/vector.ts): `Buffer.from(new Float32Array(vector).buffer)`.
Each element is converted to float32 and laid out as 4 little-endian bytes,
concatenated in input order. -/
def serializeVector : List JsNum → List ℕ
  | [] => []
  | x :: rest => bytesLE4 (f32BitsOfJs x) ++ serializeVector rest

/-- `deserializeVector` (src/vector.ts): view the byte sequence as
`buffer.byteLength / 4` little-endian float32 values (the element count is
truncated to an integer, so a trailing remainder of 1–3 bytes is ignored). -/
def deserializeVector : List ℕ → List JsNum
  | b0 :: b1 :: b2 :: b3 :: rest =>
      jsOfBits32 (b0 + b1 * 256 + b2 * 256 ^ 2 + b3 * 256 ^ 3) :: deserializeVector rest
  | _ => []

/-- Value-level float64 → float32 rounding (round to nearest, ties to even;
overflow past the largest finite float32 midpoint `2^128 - 2^103` gives a
signed infinity).  This is the reference semantics of storing a number into
a `Float32Array`, stated independently of any bit-level encoding. -/
def ratToF32 (q : ℚ) : JsNum :=
  if q = 0 then .finite 0
  else if (2 : ℚ) ^ (128 : ℤ) - (2 : ℚ) ^ (103 : ℤ) ≤ |q| then
    (if q < 0 then .negInf else .posInf)
  else
    let e : ℤ := max (floorLog2 |q|) (-126)
    let n : ℤ := roundHalfEven (|q| * (2 : ℚ) ^ ((23 : ℤ) - e))
    .finite ((if q < 0 then -1 else 1) * (n : ℚ) * (2 : ℚ) ^ (e - 23))

/-- Rounding a `JsNum` to float32 precision: non-finite values are fixed,
finite values round per `ratToF32`. -/
def toFloat32 : JsNum → JsNum
  | .finite q => ratToF32 q
  | .posInf => .posInf
  | .negInf => .negInf
  | .nan => .nan

/-! ## JavaScript values crossing the library boundary

`validateVector` takes `unknown` and the DML helpers take
`Record<string, unknown>` maps, so we need a small model of JS values.
Array elements are modelled by the non-recursive `JsPrim`
(`JsPrim.object` stands for any remaining non-primitive value, including a
nested array — all that matters about such an element here is that it is
not a number). -/

/-- A primitive JS value (array elements, scalar column values). -/
inductive JsPrim where
  | num (x : JsNum)
  | str (s : String)
  | boolean (b : Bool)
  | blob (bytes : List ℕ)
  | null
  | undefined
  | object
  deriving DecidableEq, Repr

/-- A JS value as passed to the helpers: a primitive or an array of
primitives. -/
inductive JsValue where
  | prim (p : JsPrim)
  | arr (xs : List JsPrim)
  deriving DecidableEq, Repr

/-- The `undefined` value. -/
def JsValue.undefVal : JsValue := .prim .undefined

/-- The `null` value. -/
def JsValue.null : JsValue := .prim .null

/-- A plain number value. -/
def JsValue.num (x : JsNum) : JsValue := .prim (.num x)

/-- ECMAScript `ToNumber` as applied element-wise by the `Float32Array`
constructor, restricted to the shapes that occur here (a numeric-string
element would additionally be parsed by JS; the repository only ever stores
numbers inside vector arrays, so strings and objects are modelled by their
generic non-numeric result, `NaN`). -/
def JsPrim.toNum : JsPrim → JsNum
  | .num x => x
  | .null => .finite 0
  | .boolean b => .finite (if b then 1 else 0)
  | .undefined => .nan
  | .str _ => .nan
  | .blob _ => .nan
  | .object => .nan

/-! ## drizzle SQL fragments

A drizzle `SQL` object is an ordered list of chunks.  Rendering emits raw
text verbatim, quotes identifiers, and emits one `?` placeholder per bound
parameter; the parameter list is the in-order projection of the parameter
chunks, and callers bind positionally. -/

/-- One bound parameter. -/
inductive SqlParam where
  | blob (bytes : List ℕ)
  | value (v : JsValue)
  | null
  deriving DecidableEq, Repr

/-- One chunk of a drizzle `SQL` object. -/
inductive SqlChunk where
  | raw (s : String)
  | ident (name : String)
  | colRef (table name : String)
  | param (p : SqlParam)
  deriving DecidableEq, Repr

/-- A drizzle `SQL` fragment: its ordered chunks.  (A fragment also carries
an optional result *decoder* set by `.mapWith`; the decoder is applied to
driver results when rows are mapped and contributes nothing to the rendered
text or the bound parameters, so it is not part of the rendered shape.) -/
structure SQLFrag where
  chunks : List SqlChunk
  deriving DecidableEq, Repr

/-- Rendered placeholder text of a chunk. -/
def SqlChunk.text : SqlChunk → String
  | .raw s => s
  | .ident n => "\"" ++ n ++ "\""
  | .colRef t n => "\"" ++ t ++ "\".\"" ++ n ++ "\""
  | .param _ => "?"

/-- The rendered SQL text of a fragment (one `?` per bound parameter). -/
def sqlText (f : SQLFrag) : String :=
  String.join (f.chunks.map SqlChunk.text)

/-- The parameter of a chunk, if it is a parameter chunk. -/
def SqlChunk.paramOf : SqlChunk → Option SqlParam
  | .param p => some p
  | _ => none

/-- Ordered bound parameters of a chunk list. -/
def paramsOf (cs : List SqlChunk) : List SqlParam :=
  cs.filterMap SqlChunk.paramOf

/-- Ordered bound parameters of a fragment, exactly matching the order of
`?` placeholders in `sqlText`. -/
def sqlParams (f : SQLFrag) : List SqlParam :=
  paramsOf f.chunks

/-- The name of a chunk, if it is a plain identifier chunk. -/
def SqlChunk.identOf : SqlChunk → Option String
  | .ident n => some n
  | _ => none

/-- Ordered plain identifiers of a chunk list. -/
def identsOf (cs : List SqlChunk) : List String :=
  cs.filterMap SqlChunk.identOf

/-- drizzle `SQL.append`: chunk concatenation. -/
def SQLFrag.append (a b : SQLFrag) : SQLFrag :=
  ⟨a.chunks ++ b.chunks⟩

/-- drizzle `sql.raw`: a single verbatim text chunk, binding nothing (a `?`
occurring in the raw text is plain text for drizzle, not a parameter). -/
def sqlRaw (s : String) : SQLFrag :=
  ⟨[.raw s]⟩

/-- drizzle `SQL.mapWith(decoder)`: installs a *result decoder* used when
mapping driver rows.  It neither adds chunks nor binds the decoder argument
as a parameter, so the fragment shape is unchanged. -/
def SQLFrag.mapWith (f : SQLFrag) (_decoder : List ℕ) : SQLFrag :=
  f

/-- drizzle `sql.join(list, sep)` on chunk lists. -/
def joinChunks (sep : List SqlChunk) : List (List SqlChunk) → List SqlChunk
  | [] => []
  | [x] => x
  | x :: y :: rest => x ++ sep ++ joinChunks sep (y :: rest)

/-- A drizzle `SQLiteColumn` reference, as far as SQL rendering is
concerned: its table and column names. -/
structure ColumnRef where
  table : String
  name : String
  deriving DecidableEq, Repr

/-- The `column: string | SQLiteColumn` argument of `vectorMatch`. -/
inductive ColumnArg where
  | str (name : String)
  | col (c : ColumnRef)
  deriving DecidableEq, Repr

/-! ## Query helpers (src/query.ts) -/

/-- `vectorMatch` (src/query.ts): builds
`sql.raw(columnName ++ " MATCH ?").append(sql` AND k = ${k}`).mapWith(() => vectorBuffer)`.
The `?` after `MATCH` comes from `sql.raw`, and the serialized query vector
is only installed as a result decoder via `.mapWith`. -/
def vectorMatch (column : ColumnArg) (queryVector : List JsNum) (k : ℤ) : SQLFrag :=
  let columnName := match column with
    | .str s => s
    | .col c => c.name
  let vectorBuffer := serializeVector queryVector
  ((sqlRaw (columnName ++ " MATCH ?")).append
      ⟨[.raw " AND k = ", .param (.value (.num (.finite (k : ℚ))))]⟩).mapWith
    vectorBuffer

/-- `knnWhere` (src/query.ts):
`` sql`${sql.identifier(column)} MATCH ${vectorBuffer} AND k = ${k}` ``. -/
def knnWhere (column : String) (queryVector : List JsNum) (k : ℤ) : SQLFrag :=
  ⟨[.ident column, .raw " MATCH ", .param (.blob (serializeVector queryVector)),
    .raw " AND k = ", .param (.value (.num (.finite (k : ℚ))))]⟩

/-- An operand of the vector SQL functions:
`SQLiteColumn | number[] | SQL`. -/
inductive VecExpr where
  | arr (v : List JsNum)
  | column (c : ColumnRef)
  | expr (f : SQLFrag)
  deriving DecidableEq, Repr

/-- `toVectorSql` (src/query.ts): an array is serialized and bound as one
parameter, a nested `SQL` expression is spliced as-is, and a column
reference renders as an escaped identifier. -/
def toVectorSql : VecExpr → SQLFrag
  | .arr v => ⟨[.param (.blob (serializeVector v))]⟩
  | .expr f => f
  | .column c => ⟨[.colRef c.table c.name]⟩

/-- `vec_add` (src/query.ts): `` sql`vec_add(${v1}, ${v2})` ``. -/
def vec_add (vec1 vec2 : VecExpr) : SQLFrag :=
  ⟨[SqlChunk.raw "vec_add("] ++ (toVectorSql vec1).chunks ++ [SqlChunk.raw ", "] ++
    (toVectorSql vec2).chunks ++ [SqlChunk.raw ")"]⟩

/-- `vec_sub` (src/query.ts): `` sql`vec_sub(${v1}, ${v2})` ``. -/
def vec_sub (vec1 vec2 : VecExpr) : SQLFrag :=
  ⟨[SqlChunk.raw "vec_sub("] ++ (toVectorSql vec1).chunks ++ [SqlChunk.raw ", "] ++
    (toVectorSql vec2).chunks ++ [SqlChunk.raw ")"]⟩

/-! ## vec0 schema builder (src/virtual-table.ts) -/

/-- Column kinds of a vec0 virtual table. -/
inductive Vec0Type where
  | float
  | int8
  | bit
  | integer
  | text
  | blob
  deriving DecidableEq, Repr

/-- `distanceMetric` values. -/
inductive DistanceMetric where
  | L2
  | cosine
  deriving DecidableEq, Repr

/-- `Vec0ColumnConfig` (src/virtual-table.ts).  `dimensions` is a JS number
or `undefined`; the repository only ever stores integers there, so it is
modelled as `Option ℤ` (`none` = `undefined`). -/
structure Vec0ColumnConfig where
  name : String
  type : Vec0Type
  dimensions : Option ℤ := none
  primaryKey : Bool := false
  distanceMetric : Option DistanceMetric := none
  deriving DecidableEq, Repr

/-- `Vec0ColumnBuilder`: a fluent wrapper around a config under
construction. -/
structure Vec0ColumnBuilder where
  config : Vec0ColumnConfig
  deriving DecidableEq, Repr

/-- `.primaryKey()` on the builder. -/
def Vec0ColumnBuilder.primaryKey (b : Vec0ColumnBuilder) : Vec0ColumnBuilder :=
  ⟨{ b.config with primaryKey := true }⟩

/-- `.distanceMetric(metric)` on the builder. -/
def Vec0ColumnBuilder.distanceMetric (b : Vec0ColumnBuilder) (m : DistanceMetric) :
    Vec0ColumnBuilder :=
  ⟨{ b.config with distanceMetric := some m }⟩

/-- `.build()` on the builder. -/
def Vec0ColumnBuilder.build (b : Vec0ColumnBuilder) : Vec0ColumnConfig :=
  b.config

/-- `vecFloat(name, dimensions)`. -/
def vecFloat (name : String) (dimensions : ℤ) : Vec0ColumnBuilder :=
  ⟨{ name := name, type := .float, dimensions := some dimensions }⟩

/-- `vecInt8(name, dimensions)`. -/
def vecInt8 (name : String) (dimensions : ℤ) : Vec0ColumnBuilder :=
  ⟨{ name := name, type := .int8, dimensions := some dimensions }⟩

/-- `vecBit(name, dimensions)`. -/
def vecBit (name : String) (dimensions : ℤ) : Vec0ColumnBuilder :=
  ⟨{ name := name, type := .bit, dimensions := some dimensions }⟩

/-- `vecInteger(name)`. -/
def vecInteger (name : String) : Vec0ColumnBuilder :=
  ⟨{ name := name, type := .integer }⟩

/-- `vecText(name)`. -/
def vecText (name : String) : Vec0ColumnBuilder :=
  ⟨{ name := name, type := .text }⟩

/-- `vecBlob(name)`. -/
def vecBlob (name : String) : Vec0ColumnBuilder :=
  ⟨{ name := name, type := .blob }⟩

/-- A `Vec0Table` value: its name and finalized column configs. -/
structure Vec0Table where
  name : String
  columns : List Vec0ColumnConfig
  deriving DecidableEq, Repr

/-- `vec0Table(name, columns)`: `Object.entries` preserves insertion order,
and the entry key is used as the column name only when the builder's own
name is falsy (the empty string). -/
def vec0Table (name : String) (columns : List (String × Vec0ColumnBuilder)) : Vec0Table :=
  ⟨name, columns.map (fun p =>
    let config := p.2.build
    if config.name = "" then { config with name := p.1 } else config)⟩

/-- JS truthiness of the `dimensions` field (`undefined` and `0` are
falsy). -/
def dimsTruthy : Option ℤ → Bool
  | some d => d != 0
  | none => false

/-- ` distance_metric=<metric>` suffix when a metric is set. -/
def metricSuffix : Option DistanceMetric → String
  | some .L2 => " distance_metric=L2"
  | some .cosine => " distance_metric=cosine"
  | none => ""

/-- One column definition inside `createSQL()`, mirroring the if/else
chain of the source (note: the vector branches are guarded by the
*truthiness* of `dimensions`, so a vector column with dimensions `0`
falls through every branch and renders as the bare column name). -/
def renderColDef (col : Vec0ColumnConfig) : String :=
  if col.type = Vec0Type.float ∧ dimsTruthy col.dimensions then
    col.name ++ " float[" ++ toString (col.dimensions.getD 0) ++ "]" ++
      metricSuffix col.distanceMetric
  else if col.type = Vec0Type.int8 ∧ dimsTruthy col.dimensions then
    col.name ++ " int8[" ++ toString (col.dimensions.getD 0) ++ "]" ++
      metricSuffix col.distanceMetric
  else if col.type = Vec0Type.bit ∧ dimsTruthy col.dimensions then
    col.name ++ " bit[" ++ toString (col.dimensions.getD 0) ++ "]"
  else if col.type = Vec0Type.integer then
    col.name ++ " integer" ++ (if col.primaryKey then " primary key" else "")
  else if col.type = Vec0Type.text then
    col.name ++ " text"
  else if col.type = Vec0Type.blob then
    col.name ++ " blob"
  else
    col.name

/-- `createSQL()`: the CREATE VIRTUAL TABLE statement.  It is a total
string function — no dimension validation happens here. -/
def Vec0Table.createSQL (t : Vec0Table) : String :=
  "CREATE VIRTUAL TABLE IF NOT EXISTS " ++ t.name ++ " USING vec0(" ++
    String.intercalate ", " (t.columns.map renderColDef) ++ ")"

/-- `dropSQL()`. -/
def Vec0Table.dropSQL (t : Vec0Table) : String :=
  "DROP TABLE IF EXISTS " ++ t.name

/-! ## DML helpers (src/index.ts) -/

/-- A `Record<string, unknown>` value map / row, as an association list;
a key that is missing reads as `undefined`, just as in JS. -/
def rowGet (row : List (String × JsValue)) (key : String) : JsValue :=
  match row.find? (fun p => p.1 == key) with
  | some p => p.2
  | none => JsValue.undefVal

/-- `isVectorColumn` (src/index.ts). -/
def isVectorColumn (config : Vec0ColumnConfig) : Bool :=
  match config.type with
  | .float => true
  | .int8 => true
  | .bit => true
  | _ => false

/-- `serializeValue` (src/index.ts): `null`/`undefined` become a bound
NULL; an array value of a vector column is codec-serialized into a blob;
everything else is bound as-is. -/
def serializeValue (value : JsValue) (config : Vec0ColumnConfig) : SqlParam :=
  if value = JsValue.null ∨ value = JsValue.undefVal then SqlParam.null
  else
    match value with
    | .arr xs =>
        if isVectorColumn config then SqlParam.blob (serializeVector (xs.map JsPrim.toNum))
        else SqlParam.value (.arr xs)
    | v => SqlParam.value v

/-- Columns of the table that are present (not `undefined`) in a value
map, in declared order — the single filtering rule all three DML value
paths share. -/
def presentColumns (table : Vec0Table) (values : List (String × JsValue)) :
    List Vec0ColumnConfig :=
  table.columns.filter (fun col => rowGet values col.name != JsValue.undefVal)

/-- `insertVec0(table, values)` (src/index.ts). -/
def insertVec0 (table : Vec0Table) (values : List (String × JsValue)) :
    Except String SQLFrag :=
  let columns := presentColumns table values
  if columns.isEmpty then
    Except.error "insertVec0: No values provided for insert"
  else
    Except.ok ⟨[SqlChunk.raw "INSERT INTO ", SqlChunk.ident table.name, SqlChunk.raw " ("] ++
      joinChunks [SqlChunk.raw ", "] (columns.map (fun col => [SqlChunk.ident col.name])) ++
      [SqlChunk.raw ") VALUES ("] ++
      joinChunks [SqlChunk.raw ", "]
        (columns.map (fun col => [SqlChunk.param (serializeValue (rowGet values col.name) col)])) ++
      [SqlChunk.raw ")"]⟩

/-- One `(...)` value tuple of `insertManyVec0`, rendered for `row` in the
column order fixed by the first row. -/
def valueTuple (columnConfigs : List Vec0ColumnConfig) (row : List (String × JsValue)) :
    List SqlChunk :=
  [SqlChunk.raw "("] ++
    joinChunks [SqlChunk.raw ", "]
      (columnConfigs.map (fun col => [SqlChunk.param (serializeValue (rowGet row col.name) col)])) ++
    [SqlChunk.raw ")"]

/-- `insertManyVec0(table, rows)` (src/index.ts): the column set and order
come from the table's declared columns present in the *first* row; every
row (including the first) is then rendered in that fixed order. -/
def insertManyVec0 (table : Vec0Table) (rows : List (List (String × JsValue))) :
    Except String SQLFrag :=
  match rows with
  | [] => Except.error "insertManyVec0: No rows provided for insert"
  | firstRow :: _ =>
    let columnConfigs := presentColumns table firstRow
    if columnConfigs.isEmpty then
      Except.error "insertManyVec0: No values provided for insert"
    else
      Except.ok ⟨[SqlChunk.raw "INSERT INTO ", SqlChunk.ident table.name, SqlChunk.raw " ("] ++
        joinChunks [SqlChunk.raw ", "]
          (columnConfigs.map (fun col => [SqlChunk.ident col.name])) ++
        [SqlChunk.raw ") VALUES "] ++
        joinChunks [SqlChunk.raw ", "] (rows.map (valueTuple columnConfigs))⟩

/-- `Vec0WhereCondition`: a bare rowid number or a prebuilt SQL
condition. -/
inductive Vec0Where where
  | rowid (n : ℤ)
  | cond (f : SQLFrag)
  deriving DecidableEq, Repr

/-- The rendered WHERE condition. -/
def whereFrag : Vec0Where → SQLFrag
  | .rowid n => ⟨[SqlChunk.raw "rowid = ", SqlChunk.param (.value (.num (.finite (n : ℚ))))]⟩
  | .cond f => f

/-- `deleteVec0(table, where)` (src/index.ts). -/
def deleteVec0 (table : Vec0Table) (whereC : Vec0Where) : SQLFrag :=
  ⟨[SqlChunk.raw "DELETE FROM ", SqlChunk.ident table.name, SqlChunk.raw " WHERE "] ++
    (whereFrag whereC).chunks⟩

/-- `updateVec0(table, values, where)` (src/index.ts). -/
def updateVec0 (table : Vec0Table) (values : List (String × JsValue))
    (whereC : Vec0Where) : Except String SQLFrag :=
  let setCols := presentColumns table values
  if setCols.isEmpty then
    Except.error "updateVec0: No values provided for update"
  else
    Except.ok ⟨[SqlChunk.raw "UPDATE ", SqlChunk.ident table.name, SqlChunk.raw " SET "] ++
      joinChunks [SqlChunk.raw ", "]
        (setCols.map (fun col =>
          [SqlChunk.ident col.name, SqlChunk.raw " = ",
           SqlChunk.param (serializeValue (rowGet values col.name) col)])) ++
      [SqlChunk.raw " WHERE "] ++ (whereFrag whereC).chunks⟩

/-! ## Pure type/math utilities (src/types.ts)

`Math.sqrt` computes an irrational in general; the guards under
verification are independent of it, so the square root is passed in as an
oracle parameter and every theorem quantifies over it. -/

/-- `typedVector(dimensions, values)`. -/
def typedVector (dimensions : ℕ) (values : List ℚ) : Except String (List ℚ) :=
  if values.length ≠ dimensions then
    Except.error ("Vector dimension mismatch: expected " ++ toString dimensions ++
      ", got " ++ toString values.length)
  else
    Except.ok values

/-- `l2Distance(a, b)`. -/
def l2Distance (sqrt : ℚ → ℚ) (a b : List ℚ) : Except String ℚ :=
  if a.length ≠ b.length then
    Except.error "Vectors must have the same dimensions"
  else
    Except.ok (sqrt (((a.zip b).map (fun p => (p.1 - p.2) * (p.1 - p.2))).sum))

/-- `cosineSimilarity(a, b)`. -/
def cosineSimilarity (sqrt : ℚ → ℚ) (a b : List ℚ) : Except String ℚ :=
  if a.length ≠ b.length then
    Except.error "Vectors must have the same dimensions"
  else
    let dot := ((a.zip b).map (fun p => p.1 * p.2)).sum
    let normA := (a.map (fun x => x * x)).sum
    let normB := (b.map (fun x => x * x)).sum
    let magnitude := sqrt normA * sqrt normB
    Except.ok (if magnitude = 0 then 0 else dot / magnitude)

/-- `cosineDistance(a, b) = 1 - cosineSimilarity(a, b)` (an exception from
`cosineSimilarity` propagates). -/
def cosineDistance (sqrt : ℚ → ℚ) (a b : List ℚ) : Except String ℚ :=
  (cosineSimilarity sqrt a b).map (fun s => 1 - s)

/-- `dotProduct(a, b)`. -/
def dotProduct (a b : List ℚ) : Except String ℚ :=
  if a.length ≠ b.length then
    Except.error "Vectors must have the same dimensions"
  else
    Except.ok (((a.zip b).map (fun p => p.1 * p.2)).sum)

/-- `typeof v === 'number' && !isNaN(v)` for an array element. -/
def isValidNumber : JsPrim → Bool
  | .num n => n != JsNum.nan
  | _ => false

/-- `validateVector(value, dimensions?)` (src/types.ts): non-arrays throw,
then any non-number or NaN element throws, then a length different from
the given `dimensions` throws; otherwise the result is `true`. -/
def validateVector (value : JsValue) (dimensions : Option ℕ) : Except String Bool :=
  match value with
  | .arr xs =>
    if ¬ (xs.all isValidNumber) then
      Except.error "Vector must contain only valid numbers"
    else
      match dimensions with
      | some d =>
        if xs.length ≠ d then
          Except.error ("Vector dimension mismatch: expected " ++ toString d ++
            ", got " ++ toString xs.length)
        else
          Except.ok true
      | none => Except.ok true
  | .prim _ => Except.error "Vector must be an array"

/-! ## Theorems -/

/-- C8: `vec0Table("items_vec", {id: integer pk, embedding: float[128]})`
renders exactly the expected CREATE VIRTUAL TABLE string, and `dropSQL()`
is `DROP TABLE IF EXISTS <name>` for every table definition. -/
theorem C8_schema_rendering_exact :
    (vec0Table "items_vec"
        [("id", (vecInteger "id").primaryKey),
         ("embedding", vecFloat "embedding" 128)]).createSQL =
      "CREATE VIRTUAL TABLE IF NOT EXISTS items_vec USING vec0(id integer primary key, embedding float[128])" ∧
    ∀ t : Vec0Table, t.dropSQL = "DROP TABLE IF EXISTS " ++ t.name := by
  exact ⟨rfl, fun t => rfl⟩

set_option maxRecDepth 4000 in
/-- C4: a vector-kind column (float, int8 or bit) with dimensions `0`
renders as the bare column name — the bracketed type annotation is omitted
(falsy-omission), so `float[0]` never appears — while dimensions `-4`
passes through verbatim as `float[-4]` (resp. `int8[-4]`, `bit[-4]`).
`createSQL` is a total string function, so no error is raised either way. -/
theorem C4_zero_dims_omitted_negative_verbatim :
    (∀ (nm : String) (pk : Bool) (met : Option DistanceMetric),
      renderColDef ⟨nm, .float, some 0, pk, met⟩ = nm ∧
      renderColDef ⟨nm, .int8, some 0, pk, met⟩ = nm ∧
      renderColDef ⟨nm, .bit, some 0, pk, met⟩ = nm) ∧
    renderColDef (vecFloat "embedding" (-4)).build = "embedding float[-4]" ∧
    renderColDef (vecInt8 "embedding" (-4)).build = "embedding int8[-4]" ∧
    renderColDef (vecBit "embedding" (-4)).build = "embedding bit[-4]" ∧
    (vec0Table "items_vec" [("embedding", vecFloat "embedding" 0)]).createSQL =
      "CREATE VIRTUAL TABLE IF NOT EXISTS items_vec USING vec0(embedding)" ∧
    (vec0Table "items_vec" [("embedding", vecFloat "embedding" (-4))]).createSQL =
      "CREATE VIRTUAL TABLE IF NOT EXISTS items_vec USING vec0(embedding float[-4])" ∧
    ¬ List.IsInfix "float[0]".toList
        ((vec0Table "items_vec" [("embedding", vecFloat "embedding" 0)]).createSQL).toList ∧
    List.IsInfix "float[-4]".toList
        ((vec0Table "items_vec" [("embedding", vecFloat "embedding" (-4))]).createSQL).toList := by
  refine ⟨fun nm pk met => ⟨rfl, rfl, rfl⟩, rfl, rfl, rfl, rfl, rfl, by decide, by decide⟩

/-- C5: in `vec_add`/`vec_sub`, each array operand contributes exactly one
bound parameter (its serialized bytes) at its placeholder's position, a
column reference contributes none — so literal+literal binds 2,
column+literal binds 1 (in either order), column+column binds 0. -/
theorem C5_add_sub_operand_params (a b : List JsNum) (c d : ColumnRef) :
    sqlParams (vec_add (.arr a) (.arr b)) =
      [SqlParam.blob (serializeVector a), SqlParam.blob (serializeVector b)] ∧
    sqlParams (vec_add (.column c) (.arr b)) = [SqlParam.blob (serializeVector b)] ∧
    sqlParams (vec_add (.arr a) (.column d)) = [SqlParam.blob (serializeVector a)] ∧
    sqlParams (vec_add (.column c) (.column d)) = [] ∧
    sqlParams (vec_sub (.arr a) (.arr b)) =
      [SqlParam.blob (serializeVector a), SqlParam.blob (serializeVector b)] ∧
    sqlParams (vec_sub (.column c) (.arr b)) = [SqlParam.blob (serializeVector b)] ∧
    sqlParams (vec_sub (.arr a) (.column d)) = [SqlParam.blob (serializeVector a)] ∧
    sqlParams (vec_sub (.column c) (.column d)) = [] := by
  exact ⟨rfl, rfl, rfl, rfl, rfl, rfl, rfl, rfl⟩

/-- C9: every pure numeric utility comparing two vectors (`l2Distance`,
`cosineSimilarity`, `cosineDistance`, `dotProduct`) throws the
dimension-mismatch error whenever the operand lengths differ, and
`typedVector` throws whenever the value list's length differs from the
declared dimensions (for any square-root oracle). -/
theorem C9_dimension_mismatch_always_throws (sqrt : ℚ → ℚ) (a b : List ℚ)
    (h : a.length ≠ b.length) (dims : ℕ) (values : List ℚ)
    (hv : values.length ≠ dims) :
    l2Distance sqrt a b = Except.error "Vectors must have the same dimensions" ∧
    cosineSimilarity sqrt a b = Except.error "Vectors must have the same dimensions" ∧
    cosineDistance sqrt a b = Except.error "Vectors must have the same dimensions" ∧
    dotProduct a b = Except.error "Vectors must have the same dimensions" ∧
    typedVector dims values =
      Except.error ("Vector dimension mismatch: expected " ++ toString dims ++
        ", got " ++ toString values.length) := by
  refine ⟨?_, ?_, ?_, ?_, ?_⟩ <;>
    simp [l2Distance, cosineSimilarity, cosineDistance, dotProduct, typedVector,
      Except.map, h, hv]

/-- Witness for C9 at `[1,2]` vs `[1,2,3]` and `typedVector 4 [1,2,3]`. -/
theorem C9_dimension_mismatch_always_throws_witness :
    l2Distance id [1, 2] [1, 2, 3] = Except.error "Vectors must have the same dimensions" ∧
    cosineSimilarity id [1, 2] [1, 2, 3] = Except.error "Vectors must have the same dimensions" ∧
    cosineDistance id [1, 2] [1, 2, 3] = Except.error "Vectors must have the same dimensions" ∧
    dotProduct [1, 2] [1, 2, 3] = Except.error "Vectors must have the same dimensions" ∧
    typedVector 4 [1, 2, 3] =
      Except.error ("Vector dimension mismatch: expected " ++ toString 4 ++
        ", got " ++ toString ([1, 2, 3] : List ℚ).length) :=
  C9_dimension_mismatch_always_throws id [1, 2] [1, 2, 3] (by decide) 4 [1, 2, 3] (by decide)

/-- C10: `validateVector` succeeds (with `true`) exactly on arrays whose
elements are all non-NaN numbers and whose length matches the optional
`dimensions`; non-arrays, arrays with a non-number or NaN element, and
dimension mismatches each throw their specific error.  Infinite elements
are accepted (only NaN is rejected among non-finite numbers). -/
theorem C10_validateVector_characterization (value : JsValue) (dims : Option ℕ) :
    (validateVector value dims = Except.ok true ↔
      ∃ xs, value = JsValue.arr xs ∧ xs.all isValidNumber = true ∧
        ∀ d, dims = some d → xs.length = d) ∧
    (∀ p, value = JsValue.prim p →
      validateVector value dims = Except.error "Vector must be an array") ∧
    (∀ xs, value = JsValue.arr xs → xs.all isValidNumber = false →
      validateVector value dims = Except.error "Vector must contain only valid numbers") ∧
    (∀ xs d, value = JsValue.arr xs → dims = some d →
      xs.all isValidNumber = true → xs.length ≠ d →
      validateVector value dims =
        Except.error ("Vector dimension mismatch: expected " ++ toString d ++
          ", got " ++ toString xs.length)) ∧
    (∀ x : JsNum, isValidNumber (.num x) = true ↔ x ≠ JsNum.nan) ∧
    validateVector (JsValue.arr [.num .posInf, .num .negInf]) none = Except.ok true := by
  refine ⟨?_, ?_, ?_, ?_, ?_, rfl⟩
  · cases value with
    | prim p => simp [validateVector]
    | arr xs =>
      cases hb : xs.all isValidNumber with
      | false =>
        have hnall : ¬ ∀ x ∈ xs, isValidNumber x = true := by
          intro h
          rw [List.all_eq_true.mpr h] at hb
          exact absurd hb (by simp)
        cases dims <;> simp [validateVector, hb, hnall]
      | true =>
        have hall : ∀ x ∈ xs, isValidNumber x = true := List.all_eq_true.mp hb
        cases dims with
        | none =>
          simp [validateVector, hb]
          exact hall
        | some d =>
          by_cases hlen : xs.length = d
          · simp [validateVector, hb, hlen]
            exact hall
          · simp [validateVector, hb, hlen, hall]
  · rintro p rfl
    simp [validateVector]
  · rintro xs rfl hall
    cases dims <;> simp [validateVector, hall]
  · rintro xs d rfl rfl hall hlen
    simp [validateVector, hall, hlen]
  · intro x
    simp [isValidNumber]

/-- Witness for C10 at a NaN-containing array and a mismatched length. -/
theorem C10_validateVector_characterization_witness :
    validateVector (JsValue.arr [.num (.finite 1), .num .nan]) none =
      Except.error "Vector must contain only valid numbers" ∧
    validateVector (JsValue.arr [.num (.finite 1)]) (some 3) =
      Except.error ("Vector dimension mismatch: expected " ++ toString 3 ++
        ", got " ++ toString ([JsPrim.num (.finite 1)] : List JsPrim).length) ∧
    validateVector (JsValue.prim (.str "x")) none =
      Except.error "Vector must be an array" := by
  refine ⟨?_, ?_, ?_⟩
  · exact (C10_validateVector_characterization (JsValue.arr [.num (.finite 1), .num .nan])
      none).2.2.1 _ rfl (by rfl)
  · exact (C10_validateVector_characterization (JsValue.arr [.num (.finite 1)])
      (some 3)).2.2.2.1 _ 3 rfl rfl (by rfl) (by decide)
  · exact (C10_validateVector_characterization (JsValue.prim (.str "x")) none).2.1 _ rfl

/-- C1: `knnWhere` renders `<column> MATCH ? AND k = ?` binding exactly two
parameters (vector bytes, then k), but `vectorMatch` does not: its `MATCH ?`
placeholder comes from `sql.raw` (plain text, binding nothing) and the
serialized vector is only installed as a result decoder by `.mapWith`, so
only `k` is bound — for both the string and the column-object
representation of the column.  This refutes the two-parameter claim for
`vectorMatch`. -/
theorem C1_vectorMatch_binds_only_k :
    sqlParams (knnWhere "embedding" [.finite 1, .finite 0, .finite 0, .finite 0] 10) =
      [SqlParam.blob [0, 0, 128, 63, 0, 0, 0, 0, 0, 0, 0, 0, 0, 0, 0, 0],
       SqlParam.value (.num (.finite 10))] ∧
    sqlText (knnWhere "embedding" [.finite 1, .finite 0, .finite 0, .finite 0] 10) =
      "\"embedding\" MATCH ? AND k = ?" ∧
    sqlText (vectorMatch (.str "embedding") [.finite 1, .finite 0, .finite 0, .finite 0] 10) =
      "embedding MATCH ? AND k = ?" ∧
    sqlParams (vectorMatch (.str "embedding") [.finite 1, .finite 0, .finite 0, .finite 0] 10) =
      [SqlParam.value (.num (.finite 10))] ∧
    sqlParams (vectorMatch (.col ⟨"items_vec", "embedding"⟩)
        [.finite 1, .finite 0, .finite 0, .finite 0] 10) =
      [SqlParam.value (.num (.finite 10))] := by
  exact ⟨by with_unfolding_all decide, rfl, rfl, rfl, rfl⟩

/-- The present-column filter yields `[]` exactly when no declared column
has a defined value in the map. -/
theorem presentColumns_eq_nil_iff (t : Vec0Table) (values : List (String × JsValue)) :
    presentColumns t values = [] ↔
      ∀ c ∈ t.columns, rowGet values c.name = JsValue.undefVal := by
  simp [presentColumns, List.filter_eq_nil_iff]

/-- C6: `insertVec0` / `updateVec0` throw their "No values provided" error
exactly when no declared column has a defined value; `insertManyVec0`
throws "No rows provided" exactly on an empty row list and "No values
provided" exactly when the first row yields zero present columns; in every
other case each helper returns a statement. -/
theorem C6_dml_empty_value_guards (t : Vec0Table) (values : List (String × JsValue))
    (r : List (String × JsValue)) (rs : List (List (String × JsValue))) (w : Vec0Where) :
    (insertVec0 t values = Except.error "insertVec0: No values provided for insert" ↔
      ∀ c ∈ t.columns, rowGet values c.name = JsValue.undefVal) ∧
    ((∃ s, insertVec0 t values = Except.ok s) ↔
      ¬ ∀ c ∈ t.columns, rowGet values c.name = JsValue.undefVal) ∧
    insertManyVec0 t [] = Except.error "insertManyVec0: No rows provided for insert" ∧
    (insertManyVec0 t (r :: rs) = Except.error "insertManyVec0: No values provided for insert" ↔
      ∀ c ∈ t.columns, rowGet r c.name = JsValue.undefVal) ∧
    ((∃ s, insertManyVec0 t (r :: rs) = Except.ok s) ↔
      ¬ ∀ c ∈ t.columns, rowGet r c.name = JsValue.undefVal) ∧
    (updateVec0 t values w = Except.error "updateVec0: No values provided for update" ↔
      ∀ c ∈ t.columns, rowGet values c.name = JsValue.undefVal) ∧
    ((∃ s, updateVec0 t values w = Except.ok s) ↔
      ¬ ∀ c ∈ t.columns, rowGet values c.name = JsValue.undefVal) := by
  refine ⟨?_, ?_, rfl, ?_, ?_, ?_, ?_⟩
  · rw [← presentColumns_eq_nil_iff t values]
    by_cases h : presentColumns t values = [] <;> simp [insertVec0, h, List.isEmpty_iff]
  · rw [← presentColumns_eq_nil_iff t values]
    by_cases h : presentColumns t values = [] <;> simp [insertVec0, h, List.isEmpty_iff]
  · rw [← presentColumns_eq_nil_iff t r]
    by_cases h : presentColumns t r = [] <;> simp [insertManyVec0, h, List.isEmpty_iff]
  · rw [← presentColumns_eq_nil_iff t r]
    by_cases h : presentColumns t r = [] <;> simp [insertManyVec0, h, List.isEmpty_iff]
  · rw [← presentColumns_eq_nil_iff t values]
    by_cases h : presentColumns t values = [] <;> simp [updateVec0, h, List.isEmpty_iff]
  · rw [← presentColumns_eq_nil_iff t values]
    by_cases h : presentColumns t values = [] <;> simp [updateVec0, h, List.isEmpty_iff]

/-- Witness for C6 on a one-column table: empty maps / row lists throw,
non-empty ones produce statements. -/
theorem C6_dml_empty_value_guards_witness :
    insertVec0 ⟨"items_vec", [⟨"embedding", .float, some 4, false, none⟩]⟩ [] =
      Except.error "insertVec0: No values provided for insert" ∧
    insertManyVec0 ⟨"items_vec", [⟨"embedding", .float, some 4, false, none⟩]⟩ [] =
      Except.error "insertManyVec0: No rows provided for insert" ∧
    (∃ s, insertVec0 ⟨"items_vec", [⟨"embedding", .float, some 4, false, none⟩]⟩
      [("embedding", JsValue.arr [.num (.finite 1)])] = Except.ok s) := by
  have h := C6_dml_empty_value_guards
    ⟨"items_vec", [⟨"embedding", .float, some 4, false, none⟩]⟩ [] [] [] (.rowid 1)
  have h2 := C6_dml_empty_value_guards
    ⟨"items_vec", [⟨"embedding", .float, some 4, false, none⟩]⟩
    [("embedding", JsValue.arr [.num (.finite 1)])] [] [] (.rowid 1)
  refine ⟨h.1.mpr (by decide), h.2.2.1, h2.2.1.mpr ?_⟩
  decide

/-- `filterMap` distributes over `joinChunks` when the separator
contributes nothing. -/
theorem filterMap_joinChunks (f : SqlChunk → Option α) (sep : List SqlChunk)
    (hsep : sep.filterMap f = []) (parts : List (List SqlChunk)) :
    (joinChunks sep parts).filterMap f = (parts.map (List.filterMap f)).flatten := by
  induction parts with
  | nil => rfl
  | cons x parts ih =>
    cases parts with
    | nil => simp [joinChunks]
    | cons y rest =>
      rw [joinChunks, List.filterMap_append, List.filterMap_append, hsep, ih]
      simp

/-- Mapping to singletons and flattening is just mapping. -/
theorem flatten_map_singleton (f : α → β) (l : List α) :
    (l.map (fun x => [f x])).flatten = l.map f := by
  induction l <;> simp [*]

/-- The bound parameters of one rendered value tuple are the serialized
values of the fixed column set, in column order. -/
theorem paramsOf_valueTuple (cols : List Vec0ColumnConfig) (row : List (String × JsValue)) :
    paramsOf (valueTuple cols row) =
      cols.map (fun col => serializeValue (rowGet row col.name) col) := by
  unfold valueTuple paramsOf
  rw [List.filterMap_append, List.filterMap_append,
    filterMap_joinChunks SqlChunk.paramOf [SqlChunk.raw ", "] rfl, List.map_map]
  have hcomp : (List.filterMap SqlChunk.paramOf ∘
      fun col => [SqlChunk.param (serializeValue (rowGet row col.name) col)]) =
      fun col => [serializeValue (rowGet row col.name) col] := rfl
  rw [hcomp, flatten_map_singleton]
  simp [List.filterMap, SqlChunk.paramOf]

/-- C7: for a non-empty row list, `insertManyVec0` fixes the emitted
column set and order from the table's declared columns present in the
*first* row; every row is rendered as one value tuple in that order, and a
column absent from a later row contributes a NULL parameter (`undefined`
serializes to NULL) rather than being rejected. -/
theorem C7_insertMany_first_row_governs (t : Vec0Table) (r : List (String × JsValue))
    (rs : List (List (String × JsValue))) (h : presentColumns t r ≠ []) :
    ∃ frag, insertManyVec0 t (r :: rs) = Except.ok frag ∧
      sqlParams frag = ((r :: rs).map (fun row =>
        (presentColumns t r).map (fun col => serializeValue (rowGet row col.name) col))).flatten ∧
      identsOf frag.chunks = t.name :: (presentColumns t r).map Vec0ColumnConfig.name ∧
      ∀ col, serializeValue JsValue.undefVal col = SqlParam.null := by
  have hne : (presentColumns t r).isEmpty = false := by
    simp [List.isEmpty_iff, h]
  have hok : insertManyVec0 t (r :: rs) = Except.ok
      ⟨[SqlChunk.raw "INSERT INTO ", SqlChunk.ident t.name, SqlChunk.raw " ("] ++
        joinChunks [SqlChunk.raw ", "]
          ((presentColumns t r).map (fun col => [SqlChunk.ident col.name])) ++
        [SqlChunk.raw ") VALUES "] ++
        joinChunks [SqlChunk.raw ", "] ((r :: rs).map (valueTuple (presentColumns t r)))⟩ := by
    simp [insertManyVec0, hne, valueTuple]
  refine ⟨_, hok, ?_, ?_, fun col => rfl⟩
  · show paramsOf _ = _
    unfold paramsOf
    rw [List.filterMap_append, List.filterMap_append, List.filterMap_append]
    rw [filterMap_joinChunks SqlChunk.paramOf [SqlChunk.raw ", "] rfl,
      filterMap_joinChunks SqlChunk.paramOf [SqlChunk.raw ", "] rfl, List.map_map, List.map_map]
    have hid : (List.filterMap SqlChunk.paramOf ∘
        fun col : Vec0ColumnConfig => [SqlChunk.ident col.name]) =
        fun _ => ([] : List SqlParam) := rfl
    have htup : (List.filterMap SqlChunk.paramOf ∘ valueTuple (presentColumns t r)) =
        fun row => (presentColumns t r).map
          (fun col => serializeValue (rowGet row col.name) col) := by
      funext row
      exact paramsOf_valueTuple (presentColumns t r) row
    rw [hid, htup]
    simp [List.filterMap, SqlChunk.paramOf]
  · show identsOf _ = _
    unfold identsOf
    rw [List.filterMap_append, List.filterMap_append, List.filterMap_append]
    rw [filterMap_joinChunks SqlChunk.identOf [SqlChunk.raw ", "] rfl,
      filterMap_joinChunks SqlChunk.identOf [SqlChunk.raw ", "] rfl, List.map_map, List.map_map]
    have hid : (List.filterMap SqlChunk.identOf ∘
        fun col : Vec0ColumnConfig => [SqlChunk.ident col.name]) =
        fun col : Vec0ColumnConfig => [col.name] := rfl
    have htup : (List.filterMap SqlChunk.identOf ∘ valueTuple (presentColumns t r)) =
        fun _ => ([] : List String) := by
      funext row
      show List.filterMap SqlChunk.identOf (valueTuple (presentColumns t r) row) = []
      unfold valueTuple
      rw [List.filterMap_append, List.filterMap_append,
        filterMap_joinChunks SqlChunk.identOf [SqlChunk.raw ", "] rfl, List.map_map]
      have hp : (List.filterMap SqlChunk.identOf ∘
          fun col => [SqlChunk.param (serializeValue (rowGet row col.name) col)]) =
          fun _ : Vec0ColumnConfig => ([] : List String) := rfl
      rw [hp]
      simp [List.filterMap, SqlChunk.identOf]
    rw [hid, htup, flatten_map_singleton]
    simp [List.filterMap, SqlChunk.identOf]

/-- Witness for C7: second row lacks the vector column fixed by the first
row, and is rendered with a NULL parameter in its place. -/
theorem C7_insertMany_first_row_governs_witness :
    ∃ frag, insertManyVec0
        ⟨"items_vec", [⟨"id", .integer, none, true, none⟩, ⟨"embedding", .float, some 4, false, none⟩]⟩
        [[("id", JsValue.num (.finite 1)),
          ("embedding", JsValue.arr [.num (.finite 1), .num (.finite 0), .num (.finite 0), .num (.finite 0)])],
         [("id", JsValue.num (.finite 2))]] = Except.ok frag ∧
      sqlParams frag =
        [SqlParam.value (.num (.finite 1)),
         SqlParam.blob [0, 0, 128, 63, 0, 0, 0, 0, 0, 0, 0, 0, 0, 0, 0, 0],
         SqlParam.value (.num (.finite 2)),
         SqlParam.null] := by
  obtain ⟨frag, hfrag, hparams, _, _⟩ := C7_insertMany_first_row_governs
    ⟨"items_vec", [⟨"id", .integer, none, true, none⟩, ⟨"embedding", .float, some 4, false, none⟩]⟩
    [("id", JsValue.num (.finite 1)),
     ("embedding", JsValue.arr [.num (.finite 1), .num (.finite 0), .num (.finite 0), .num (.finite 0)])]
    [[("id", JsValue.num (.finite 2))]]
    (by decide)
  exact ⟨frag, hfrag, by rw [hparams]; with_unfolding_all decide⟩

/-! ### Round-to-nearest-even facts -/

/-- `roundHalfEven` never rounds up by more than half. -/
theorem roundHalfEven_le (q : ℚ) : (roundHalfEven q : ℚ) ≤ q + 1 / 2 := by
  have h0 : ((⌊q⌋ : ℤ) : ℚ) ≤ q := Int.floor_le q
  have h1 : q < ⌊q⌋ + 1 := Int.lt_floor_add_one q
  simp only [roundHalfEven]
  split_ifs <;> push_cast <;> linarith

/-- `roundHalfEven` never rounds down by more than half. -/
theorem le_roundHalfEven (q : ℚ) : q - 1 / 2 ≤ (roundHalfEven q : ℚ) := by
  have h0 : ((⌊q⌋ : ℤ) : ℚ) ≤ q := Int.floor_le q
  have h1 : q < ⌊q⌋ + 1 := Int.lt_floor_add_one q
  simp only [roundHalfEven]
  split_ifs <;> push_cast <;> linarith

/-- A lower bound below the argument bounds the rounded value. -/
theorem le_rhe_of_le {q : ℚ} {c : ℤ} (h : (c : ℚ) ≤ q) : c ≤ roundHalfEven q := by
  have h1 := le_roundHalfEven q
  have h2 : (c : ℚ) - 1 < (roundHalfEven q : ℚ) := by linarith
  have h3 : (c : ℤ) - 1 < roundHalfEven q := by exact_mod_cast h2
  omega

/-- A strict upper bound on the argument bounds the rounded value. -/
theorem rhe_le_of_lt {q : ℚ} {c : ℤ} (h : q < (c : ℚ)) : roundHalfEven q ≤ c := by
  have h1 := roundHalfEven_le q
  have h2 : (roundHalfEven q : ℚ) < (c : ℚ) + 1 := by linarith
  have h3 : roundHalfEven q < c + 1 := by exact_mod_cast h2
  omega

/-- Strictly below the midpoint, rounding stays strictly below. -/
theorem rhe_lt_of_lt_half {q : ℚ} {c : ℤ} (h : q < (c : ℚ) - 1 / 2) :
    roundHalfEven q < c := by
  have h1 := roundHalfEven_le q
  have h2 : (roundHalfEven q : ℚ) < (c : ℚ) := by linarith
  exact_mod_cast h2

/-- At or above the midpoint below an even integer, rounding reaches it
(the tie goes to the even side). -/
theorem le_rhe_of_half_le {q : ℚ} {c : ℤ} (hc : c % 2 = 0) (h : (c : ℚ) - 1 / 2 ≤ q) :
    c ≤ roundHalfEven q := by
  rcases lt_or_eq_of_le h with hlt | heq
  · have h1 := le_roundHalfEven q
    have h2 : (c : ℚ) - 1 < (roundHalfEven q : ℚ) := by linarith
    have h3 : (c : ℤ) - 1 < roundHalfEven q := by exact_mod_cast h2
    omega
  · have hfl : ⌊q⌋ = c - 1 := by
      rw [Int.floor_eq_iff]
      constructor
      · push_cast
        linarith
      · push_cast
        linarith
    have hr : q - (⌊q⌋ : ℚ) = 1 / 2 := by
      rw [hfl]
      push_cast
      linarith
    simp only [roundHalfEven, hr, hfl]
    have hodd : (c - 1) % 2 ≠ 0 := by omega
    rw [if_neg (by push_cast; linarith), if_neg (by push_cast; linarith), if_neg hodd]
    omega

/-! ### `floorLog2` is the floor of the base-2 logarithm -/

/-- Splitting a rational power of two. -/
theorem two_zpow_add (x y : ℤ) : (2 : ℚ) ^ (x + y) = (2 : ℚ) ^ x * (2 : ℚ) ^ y :=
  zpow_add₀ (by norm_num) x y

/-- Rational powers of two are positive. -/
theorem two_zpow_pos (z : ℤ) : (0 : ℚ) < 2 ^ z :=
  zpow_pos (by norm_num) z

/-- Rational powers of two are monotone in the exponent. -/
theorem two_zpow_le_two_zpow {x y : ℤ} (h : x ≤ y) : (2 : ℚ) ^ x ≤ 2 ^ y :=
  zpow_le_zpow_right₀ (by norm_num) h

/-- `floorLog2` brackets a positive rational between consecutive powers
of two. -/
theorem floorLog2_spec {q : ℚ} (hq : 0 < q) :
    (2 : ℚ) ^ floorLog2 q ≤ q ∧ q < (2 : ℚ) ^ (floorLog2 q + 1) := by
  have hnum : 0 < q.num := Rat.num_pos.mpr hq
  have hN : 0 < q.num.toNat := by omega
  have hD : 0 < q.den := q.pos
  have hqeq : q = (q.num.toNat : ℚ) / (q.den : ℚ) := by
    have h1 : ((q.num.toNat : ℤ) : ℚ) = (q.num : ℚ) := by
      rw [Int.toNat_of_nonneg (le_of_lt hnum)]
    push_cast at h1
    rw [h1, Rat.num_div_den]
  set A := Nat.log2 q.num.toNat with hA
  set B := Nat.log2 q.den with hB
  have hA1 : 2 ^ A ≤ q.num.toNat := Nat.log2_self_le (by omega)
  have hA2 : q.num.toNat < 2 ^ (A + 1) := Nat.lt_log2_self
  have hB1 : 2 ^ B ≤ q.den := Nat.log2_self_le (by omega)
  have hB2 : q.den < 2 ^ (B + 1) := Nat.lt_log2_self
  have hDQ : (0 : ℚ) < (q.den : ℚ) := by exact_mod_cast hD
  have castA : ((2 ^ A : ℕ) : ℚ) = (2 : ℚ) ^ (A : ℤ) := by
    push_cast
    rw [zpow_natCast]
  have castA1 : ((2 ^ (A + 1) : ℕ) : ℚ) = (2 : ℚ) ^ ((A : ℤ) + 1) := by
    push_cast
    rw [← zpow_natCast]
    push_cast
    ring_nf
  have castB : ((2 ^ B : ℕ) : ℚ) = (2 : ℚ) ^ (B : ℤ) := by
    push_cast
    rw [zpow_natCast]
  have castB1 : ((2 ^ (B + 1) : ℕ) : ℚ) = (2 : ℚ) ^ ((B : ℤ) + 1) := by
    push_cast
    rw [← zpow_natCast]
    push_cast
    ring_nf
  have hup : q < (2 : ℚ) ^ ((A : ℤ) - B + 1) := by
    rw [hqeq, div_lt_iff hDQ]
    have h1 : ((q.num.toNat : ℕ) : ℚ) < (2 : ℚ) ^ ((A : ℤ) + 1) := by
      rw [← castA1]
      exact_mod_cast hA2
    have h2 : (2 : ℚ) ^ ((A : ℤ) + 1) = (2 : ℚ) ^ ((A : ℤ) - B + 1) * (2 : ℚ) ^ (B : ℤ) := by
      rw [← two_zpow_add]
      ring_nf
    have h3 : (2 : ℚ) ^ (B : ℤ) ≤ (q.den : ℚ) := by
      rw [← castB]
      exact_mod_cast hB1
    calc ((q.num.toNat : ℕ) : ℚ) < (2 : ℚ) ^ ((A : ℤ) + 1) := h1
      _ = (2 : ℚ) ^ ((A : ℤ) - B + 1) * (2 : ℚ) ^ (B : ℤ) := h2
      _ ≤ (2 : ℚ) ^ ((A : ℤ) - B + 1) * (q.den : ℚ) := by
          exact mul_le_mul_of_nonneg_left h3 (le_of_lt (two_zpow_pos _))
  have hlo : (2 : ℚ) ^ ((A : ℤ) - B - 1) < q := by
    rw [hqeq, lt_div_iff hDQ]
    have h1 : (q.den : ℚ) < (2 : ℚ) ^ ((B : ℤ) + 1) := by
      rw [← castB1]
      exact_mod_cast hB2
    have h2 : (2 : ℚ) ^ ((A : ℤ) - B - 1) * (2 : ℚ) ^ ((B : ℤ) + 1) = (2 : ℚ) ^ (A : ℤ) := by
      rw [← two_zpow_add]
      ring_nf
    have h3 : (2 : ℚ) ^ (A : ℤ) ≤ ((q.num.toNat : ℕ) : ℚ) := by
      rw [← castA]
      exact_mod_cast hA1
    calc (2 : ℚ) ^ ((A : ℤ) - B - 1) * (q.den : ℚ)
        < (2 : ℚ) ^ ((A : ℤ) - B - 1) * (2 : ℚ) ^ ((B : ℤ) + 1) := by
          exact mul_lt_mul_of_pos_left h1 (two_zpow_pos _)
      _ = (2 : ℚ) ^ (A : ℤ) := h2
      _ ≤ ((q.num.toNat : ℕ) : ℚ) := h3
  show (2 : ℚ) ^ (if (2 : ℚ) ^ ((A : ℤ) - B) ≤ q then (A : ℤ) - B else (A : ℤ) - B - 1) ≤ q ∧
    q < (2 : ℚ) ^ ((if (2 : ℚ) ^ ((A : ℤ) - B) ≤ q then (A : ℤ) - B else (A : ℤ) - B - 1) + 1)
  by_cases hbr : (2 : ℚ) ^ ((A : ℤ) - B) ≤ q
  · rw [if_pos hbr]
    exact ⟨hbr, hup⟩
  · rw [if_neg hbr]
    constructor
    · exact le_of_lt hlo
    · have : (A : ℤ) - B - 1 + 1 = (A : ℤ) - B := by ring
      rw [this]
      exact lt_of_not_le hbr

/-! ### The encoder's mantissa always lands in range -/

/-- In the subnormal range the rounded mantissa lies in `[0, 2^23]`. -/
theorem subnormal_mantissa_bounds {a : ℚ} (ha : 0 < a) (he : floorLog2 a < -126) :
    0 ≤ roundHalfEven (a * (2 : ℚ) ^ (149 : ℤ)) ∧
      roundHalfEven (a * (2 : ℚ) ^ (149 : ℤ)) ≤ 2 ^ 23 := by
  constructor
  · apply le_rhe_of_le (c := 0)
    push_cast
    positivity
  · apply rhe_le_of_lt (c := 2 ^ 23)
    have h1 : a < (2 : ℚ) ^ (floorLog2 a + 1) := (floorLog2_spec ha).2
    have h2 : (2 : ℚ) ^ (floorLog2 a + 1) ≤ (2 : ℚ) ^ (-126 : ℤ) :=
      two_zpow_le_two_zpow (by omega)
    have h3 : (2 : ℚ) ^ (-126 : ℤ) * (2 : ℚ) ^ (149 : ℤ) = (2 : ℚ) ^ (23 : ℤ) := by
      rw [← two_zpow_add]
      norm_num
    calc a * (2 : ℚ) ^ (149 : ℤ)
        < (2 : ℚ) ^ (-126 : ℤ) * (2 : ℚ) ^ (149 : ℤ) :=
          mul_lt_mul_of_pos_right (lt_of_lt_of_le h1 h2) (two_zpow_pos _)
      _ = (2 : ℚ) ^ (23 : ℤ) := h3
      _ = ((2 ^ 23 : ℤ) : ℚ) := by norm_num

/-- In the normal range the rounded mantissa lies in `[2^23, 2^24]`. -/
theorem normal_mantissa_bounds {a : ℚ} (ha : 0 < a) (he : ¬ floorLog2 a < -126) :
    2 ^ 23 ≤ roundHalfEven (a * (2 : ℚ) ^ ((23 : ℤ) - floorLog2 a)) ∧
      roundHalfEven (a * (2 : ℚ) ^ ((23 : ℤ) - floorLog2 a)) ≤ 2 ^ 24 := by
  obtain ⟨hlo, hhi⟩ := floorLog2_spec ha
  constructor
  · apply le_rhe_of_le
    have h1 : (2 : ℚ) ^ (floorLog2 a) * (2 : ℚ) ^ ((23 : ℤ) - floorLog2 a) =
        (2 : ℚ) ^ (23 : ℤ) := by
      rw [← two_zpow_add]
      have : floorLog2 a + ((23 : ℤ) - floorLog2 a) = 23 := by ring
      rw [this]
    calc ((2 ^ 23 : ℤ) : ℚ) = (2 : ℚ) ^ (23 : ℤ) := by norm_num
      _ = (2 : ℚ) ^ (floorLog2 a) * (2 : ℚ) ^ ((23 : ℤ) - floorLog2 a) := h1.symm
      _ ≤ a * (2 : ℚ) ^ ((23 : ℤ) - floorLog2 a) :=
          mul_le_mul_of_nonneg_right hlo (le_of_lt (two_zpow_pos _))
  · apply rhe_le_of_lt
    have h1 : (2 : ℚ) ^ (floorLog2 a + 1) * (2 : ℚ) ^ ((23 : ℤ) - floorLog2 a) =
        (2 : ℚ) ^ (24 : ℤ) := by
      rw [← two_zpow_add]
      have : floorLog2 a + 1 + ((23 : ℤ) - floorLog2 a) = 24 := by ring
      rw [this]
    calc a * (2 : ℚ) ^ ((23 : ℤ) - floorLog2 a)
        < (2 : ℚ) ^ (floorLog2 a + 1) * (2 : ℚ) ^ ((23 : ℤ) - floorLog2 a) :=
          mul_lt_mul_of_pos_right hhi (two_zpow_pos _)
      _ = (2 : ℚ) ^ (24 : ℤ) := h1
      _ = ((2 ^ 24 : ℤ) : ℚ) := by norm_num

/-- With `⌊log₂ a⌋ = 127`, rounding carries up to `2^24` (thus into the
infinite range) exactly when `a` reaches the overflow midpoint
`2^128 - 2^103`. -/
theorem e127_overflow_iff {a : ℚ} (ha : 0 < a) (he : floorLog2 a = 127) :
    (2 : ℚ) ^ (128 : ℤ) - (2 : ℚ) ^ (103 : ℤ) ≤ a ↔
      roundHalfEven (a * (2 : ℚ) ^ ((23 : ℤ) - 127)) = 2 ^ 24 := by
  have hb := (normal_mantissa_bounds ha (by omega)).2
  rw [he] at hb
  have hmid : ((2 : ℚ) ^ (128 : ℤ) - (2 : ℚ) ^ (103 : ℤ)) * (2 : ℚ) ^ ((23 : ℤ) - 127) =
      ((2 ^ 24 : ℤ) : ℚ) - 1 / 2 := by
    rw [sub_mul, ← two_zpow_add, ← two_zpow_add]
    norm_num
  constructor
  · intro hT
    have h1 : ((2 ^ 24 : ℤ) : ℚ) - 1 / 2 ≤ a * (2 : ℚ) ^ ((23 : ℤ) - 127) := by
      rw [← hmid]
      exact mul_le_mul_of_nonneg_right hT (le_of_lt (two_zpow_pos _))
    have h2 := le_rhe_of_half_le (c := 2 ^ 24) (by decide) h1
    omega
  · intro hn
    by_contra hT
    push_neg at hT
    have h1 : a * (2 : ℚ) ^ ((23 : ℤ) - 127) < ((2 ^ 24 : ℤ) : ℚ) - 1 / 2 := by
      rw [← hmid]
      exact mul_lt_mul_of_pos_right hT (two_zpow_pos _)
    have h2 := rhe_lt_of_lt_half (c := 2 ^ 24) h1
    omega

/-! ### Decoding a packed bit field -/

/-- Decoding `s·2^31 + E·2^23 + m` (sign bit, non-infinite exponent field,
mantissa field) yields the signed magnitude the IEEE layout prescribes. -/
theorem jsOfBits32_fields (s E m : ℕ) (hs : s ≤ 1) (hE : E ≤ 254) (hm : m < 2 ^ 23) :
    jsOfBits32 (s * 2 ^ 31 + E * 2 ^ 23 + m) =
      JsNum.finite ((if s = 1 then (-1 : ℚ) else 1) *
        (if E = 0 then (m : ℚ) * (2 : ℚ) ^ (-149 : ℤ)
         else ((2 ^ 23 + m : ℕ) : ℚ) * (2 : ℚ) ^ ((E : ℤ) - 150))) := by
  have h1 : (s * 2 ^ 31 + E * 2 ^ 23 + m) / 2 ^ 31 % 2 = s := by omega
  have h2 : (s * 2 ^ 31 + E * 2 ^ 23 + m) / 2 ^ 23 % 256 = E := by omega
  have h3 : (s * 2 ^ 31 + E * 2 ^ 23 + m) % 2 ^ 23 = m := by omega
  simp only [jsOfBits32, h1, h2, h3]
  rw [if_neg (show ¬ E = 255 by omega)]
  interval_cases s
  · simp
  · simp
    split_ifs <;> ring

/-! ### Encoding then decoding one number is exactly float32 rounding -/

/-- Decoding the encoded bit pattern of any `JsNum` yields its float32
rounding, and the pattern fits in 32 bits. -/
theorem bits_roundtrip (x : JsNum) :
    jsOfBits32 (f32BitsOfJs x) = toFloat32 x ∧ f32BitsOfJs x < 2 ^ 32 := by
  cases x with
  | nan => exact ⟨by decide, by decide⟩
  | posInf => exact ⟨by decide, by decide⟩
  | negInf => exact ⟨by decide, by decide⟩
  | finite q =>
    show jsOfBits32 (bits32OfRat q) = ratToF32 q ∧ bits32OfRat q < 2 ^ 32
    by_cases hq0 : q = 0
    · subst hq0
      have hz : bits32OfRat 0 = 0 := by simp [bits32OfRat]
      refine ⟨?_, by rw [hz]; norm_num⟩
      rw [hz, show ratToF32 0 = JsNum.finite 0 from by simp [ratToF32]]
      norm_num [jsOfBits32]
    · have ha : 0 < |q| := abs_pos.mpr hq0
      obtain ⟨hlo, hhi⟩ := floorLog2_spec ha
      set a : ℚ := |q| with ha_def
      set e : ℤ := floorLog2 a with he_def
      set sb : ℕ := if q < 0 then 1 else 0 with hsb_def
      have hsb1 : sb ≤ 1 := by rw [hsb_def]; split_ifs <;> omega
      have hsE : (if q < 0 then 2 ^ 31 else 0 : ℕ) = sb * 2 ^ 31 := by
        rw [hsb_def]; split_ifs <;> ring
      have hsign : (if sb = 1 then (-1 : ℚ) else 1) = (if q < 0 then (-1 : ℚ) else 1) := by
        rw [hsb_def]; by_cases hq : q < 0 <;> simp [hq]
      by_cases hsub : e < -126
      · -- subnormal range
        obtain ⟨hn0, hn23⟩ := subnormal_mantissa_bounds ha (by rw [← he_def]; exact hsub)
        set n : ℤ := roundHalfEven (a * (2 : ℚ) ^ (149 : ℤ)) with hn_def
        have hbits : bits32OfRat q = sb * 2 ^ 31 + n.toNat := by
          simp only [bits32OfRat, if_neg hq0]
          rw [← ha_def, ← he_def, if_pos hsub, hsE, ← hn_def]
        have hnot_of : ¬ ((2 : ℚ) ^ (128 : ℤ) - (2 : ℚ) ^ (103 : ℤ) ≤ a) := by
          push_neg
          have h1 : a < (2 : ℚ) ^ (-126 : ℤ) :=
            lt_of_lt_of_le hhi (two_zpow_le_two_zpow (by omega))
          have h2 : (2 : ℚ) ^ (-126 : ℤ) < (2 : ℚ) ^ (128 : ℤ) - (2 : ℚ) ^ (103 : ℤ) := by
            norm_num
          linarith
        have hmax : max e (-126 : ℤ) = -126 := by omega
        have hrat : ratToF32 q =
            JsNum.finite ((if q < 0 then (-1 : ℚ) else 1) * (n : ℚ) * (2 : ℚ) ^ (-149 : ℤ)) := by
          have hexp1 : (23 : ℤ) - (-126) = 149 := by norm_num
          have hexp2 : (-126 : ℤ) - 23 = -149 := by norm_num
          simp only [ratToF32]
          rw [if_neg hq0, ← ha_def, if_neg hnot_of, ← he_def, hmax, hexp1, hexp2, ← hn_def]
        constructor
        · rcases (show n.toNat < 2 ^ 23 ∨ n.toNat = 2 ^ 23 by omega) with hc | hc
          · have hb2 : sb * 2 ^ 31 + n.toNat = sb * 2 ^ 31 + 0 * 2 ^ 23 + n.toNat := by ring
            rw [hbits, hb2, jsOfBits32_fields sb 0 n.toNat hsb1 (by omega) hc, hrat,
              if_pos rfl, hsign]
            congr 1
            have hcast : ((n.toNat : ℕ) : ℚ) = (n : ℚ) := by
              exact_mod_cast Int.toNat_of_nonneg hn0
            rw [hcast]
            ring
          · have hb2 : sb * 2 ^ 31 + n.toNat = sb * 2 ^ 31 + 1 * 2 ^ 23 + 0 := by omega
            rw [hbits, hb2, jsOfBits32_fields sb 1 0 hsb1 (by omega) (by norm_num), hrat,
              if_neg (show ¬ (1 : ℕ) = 0 by norm_num), hsign]
            congr 1
            have hnval : (n : ℚ) = ((2 : ℚ)) ^ (23 : ℕ) := by
              have hn : n = 2 ^ 23 := by omega
              rw [hn]; push_cast; ring
            rw [hnval]
            norm_num
        · rw [hbits]
          omega
      · -- normal range
        obtain ⟨hn23, hn24⟩ := normal_mantissa_bounds ha (by rw [← he_def]; exact hsub)
        rw [← he_def] at hn23 hn24
        set n : ℤ := roundHalfEven (a * (2 : ℚ) ^ ((23 : ℤ) - e)) with hn_def
        set e2 : ℤ := if n = 2 ^ 24 then e + 1 else e with he2_def
        set n2 : ℤ := if n = 2 ^ 24 then (2 ^ 23 : ℤ) else n with hn2_def
        have he2ge : e ≤ e2 := by rw [he2_def]; split_ifs <;> omega
        have hn2lo : 2 ^ 23 ≤ n2 := by rw [hn2_def]; split_ifs <;> omega
        have hn2hi : n2 < 2 ^ 24 := by rw [hn2_def]; split_ifs with h <;> omega
        have hbits : bits32OfRat q =
            (if 127 < e2 then sb * 2 ^ 31 + 0x7F800000
             else sb * 2 ^ 31 + (e2 + 127).toNat * 2 ^ 23 + (n2 - 2 ^ 23).toNat) := by
          simp only [bits32OfRat, if_neg hq0]
          rw [← ha_def, ← he_def, if_neg hsub, ← hn_def, ← he2_def, ← hn2_def, hsE]
        have hval : (n2 : ℚ) * (2 : ℚ) ^ (e2 - 23) = (n : ℚ) * (2 : ℚ) ^ (e - 23) := by
          rw [hn2_def, he2_def]
          split_ifs with h
          · rw [h]
            push_cast
            rw [show (e + 1 - 23 : ℤ) = (e - 23) + 1 from by ring, two_zpow_add]
            norm_num
            ring
          · rfl
        by_cases hof : 127 < e2
        · -- overflow to infinity
          have hT : (2 : ℚ) ^ (128 : ℤ) - (2 : ℚ) ^ (103 : ℤ) ≤ a := by
            by_cases h128 : 128 ≤ e
            · have h1 : (2 : ℚ) ^ (128 : ℤ) ≤ (2 : ℚ) ^ e := two_zpow_le_two_zpow h128
              have h2 : (0 : ℚ) < (2 : ℚ) ^ (103 : ℤ) := two_zpow_pos _
              linarith
            · have hcarry : n = 2 ^ 24 := by
                by_contra hc
                rw [he2_def, if_neg hc] at hof
                omega
              have he127 : e = 127 := by
                rw [he2_def, if_pos hcarry] at hof
                omega
              apply (e127_overflow_iff ha (by rw [← he_def]; exact he127)).mpr
              rw [← show (23 : ℤ) - e = (23 : ℤ) - 127 from by omega, ← hn_def]
              exact hcarry
          constructor
          · rw [hbits, if_pos hof]
            simp only [ratToF32]
            rw [if_neg hq0, ← ha_def, if_pos hT]
            by_cases hqneg : q < 0
            · rw [hsb_def]
              simp only [if_pos hqneg]
              decide
            · rw [hsb_def]
              simp only [if_neg hqneg]
              decide
          · rw [hbits, if_pos hof]
            omega
        · -- finite normal encode
          have hfin : ¬ ((2 : ℚ) ^ (128 : ℤ) - (2 : ℚ) ^ (103 : ℤ) ≤ a) := by
            by_contra hT
            have he127le : e ≤ 127 := by omega
            by_cases he127 : e = 127
            · have hcar := (e127_overflow_iff ha (by rw [← he_def]; exact he127)).mp hT
              rw [← show (23 : ℤ) - e = (23 : ℤ) - 127 from by omega, ← hn_def] at hcar
              rw [he2_def, if_pos hcar] at hof
              omega
            · have h1 : a < (2 : ℚ) ^ (127 : ℤ) :=
                lt_of_lt_of_le hhi (two_zpow_le_two_zpow (by omega))
              have h2 : (2 : ℚ) ^ (127 : ℤ) < (2 : ℚ) ^ (128 : ℤ) - (2 : ℚ) ^ (103 : ℤ) := by
                norm_num
              linarith
          have hmax : max e (-126 : ℤ) = e := by omega
          have hE2 : (e2 + 127).toNat ≤ 254 := by omega
          have hEne : ¬ ((e2 + 127).toNat = 0) := by omega
          have hm : (n2 - 2 ^ 23).toNat < 2 ^ 23 := by omega
          constructor
          · have happ := jsOfBits32_fields sb (e2 + 127).toNat (n2 - 2 ^ 23).toNat hsb1 hE2 hm
            rw [hbits, if_neg hof, happ, if_neg hEne, hsign]
            simp only [ratToF32]
            rw [if_neg hq0, ← ha_def, if_neg hfin, ← he_def, hmax, ← hn_def]
            congr 1
            have hc1 : ((2 ^ 23 + (n2 - 2 ^ 23).toNat : ℕ) : ℚ) = (n2 : ℚ) := by
              have h1 : ((2 : ℤ) ^ 23 + ((n2 - 2 ^ 23).toNat : ℤ) : ℤ) = n2 := by omega
              exact_mod_cast h1
            have hc2 : (((e2 + 127).toNat : ℕ) : ℤ) - 150 = e2 - 23 := by omega
            rw [hc1, hc2, hval]
            ring
          · rw [hbits, if_neg hof]
            omega

/-! ### Byte-level plumbing -/

/-- Deserializing the 4 little-endian bytes of a 32-bit value recovers it. -/
theorem deserializeVector_bytesLE4 {b : ℕ} (hb : b < 2 ^ 32) (rest : List ℕ) :
    deserializeVector (bytesLE4 b ++ rest) = jsOfBits32 b :: deserializeVector rest := by
  have h : b % 256 + b / 256 % 256 * 256 + b / 256 ^ 2 % 256 * 256 ^ 2 +
      b / 256 ^ 3 % 256 * 256 ^ 3 = b := by omega
  simp only [bytesLE4, List.cons_append, List.nil_append, deserializeVector, h]
  rfl

/-- Decode ∘ encode on whole vectors is element-wise float32 rounding. -/
theorem deserialize_serialize (v : List JsNum) :
    deserializeVector (serializeVector v) = v.map toFloat32 := by
  induction v with
  | nil => rfl
  | cons x rest ih =>
    rw [serializeVector, deserializeVector_bytesLE4 (bits_roundtrip x).2, ih,
      List.map_cons, (bits_roundtrip x).1]

/-- The encoded byte sequence has exactly 4 bytes per element. -/
theorem serializeVector_length (v : List JsNum) :
    (serializeVector v).length = 4 * v.length := by
  induction v with
  | nil => rfl
  | cons x rest ih =>
    simp only [serializeVector, List.length_append, List.length_cons, bytesLE4,
      List.length_nil, ih]
    omega

/-- The decoder produces exactly `⌊byteLength / 4⌋` elements. -/
theorem deserializeVector_length : ∀ bs : List ℕ,
    (deserializeVector bs).length = bs.length / 4
  | b0 :: b1 :: b2 :: b3 :: rest => by
    simp only [deserializeVector, List.length_cons, deserializeVector_length rest]
    omega
  | [] => rfl
  | [_] => by simp [deserializeVector]
  | [_, _] => by simp [deserializeVector]
  | [_, _, _] => by simp [deserializeVector]

/-- The decoder ignores a trailing remainder of fewer than 4 bytes. -/
theorem deserializeVector_truncates : ∀ bs : List ℕ,
    deserializeVector bs = deserializeVector (bs.take (4 * (bs.length / 4)))
  | b0 :: b1 :: b2 :: b3 :: rest => by
    have h4 : 4 * ((b0 :: b1 :: b2 :: b3 :: rest).length / 4) =
        (4 * (rest.length / 4)) + 1 + 1 + 1 + 1 := by
      simp only [List.length_cons]
      omega
    rw [h4, List.take_succ_cons, List.take_succ_cons, List.take_succ_cons,
      List.take_succ_cons]
    simp only [deserializeVector]
    rw [← deserializeVector_truncates rest]
  | [] => rfl
  | [_] => by simp [deserializeVector]
  | [_, _] => by simp [deserializeVector]
  | [_, _, _] => by simp [deserializeVector]

/-- Per-element byte layout: 4 bytes, each below 256, little-endian. -/
theorem bytesLE4_spec (x : JsNum) :
    (bytesLE4 (f32BitsOfJs x)).length = 4 ∧
      (∀ b ∈ bytesLE4 (f32BitsOfJs x), b < 256) ∧
      leVal4 (bytesLE4 (f32BitsOfJs x)) = f32BitsOfJs x := by
  have hb := (bits_roundtrip x).2
  refine ⟨rfl, ?_, ?_⟩
  · intro b hbmem
    simp only [bytesLE4, List.mem_cons, List.not_mem_nil, or_false] at hbmem
    rcases hbmem with h | h | h | h <;> subst h <;> omega
  · simp only [bytesLE4, leVal4]
    omega

/-- C2: decode ∘ encode preserves the length and reproduces every element
rounded to float32 precision (`toFloat32` is the value-level IEEE-754
round-to-nearest-even float64→float32 conversion); NaN comes back NaN,
each infinity comes back with its sign, and any finite value at or beyond
the float32 overflow midpoint `2^128 - 2^103` comes back as the
correspondingly signed infinity. -/
theorem C2_codec_roundtrip (v : List JsNum) :
    deserializeVector (serializeVector v) = v.map toFloat32 ∧
    (deserializeVector (serializeVector v)).length = v.length ∧
    toFloat32 JsNum.nan = JsNum.nan ∧
    toFloat32 JsNum.posInf = JsNum.posInf ∧
    toFloat32 JsNum.negInf = JsNum.negInf ∧
    (∀ q : ℚ, (2 : ℚ) ^ (128 : ℤ) - (2 : ℚ) ^ (103 : ℤ) ≤ |q| →
      toFloat32 (JsNum.finite q) = (if q < 0 then JsNum.negInf else JsNum.posInf)) := by
  refine ⟨deserialize_serialize v, ?_, rfl, rfl, rfl, ?_⟩
  · rw [deserialize_serialize v, List.length_map]
  · intro q hq
    have hq0 : q ≠ 0 := by
      intro h
      subst h
      norm_num at hq
    show ratToF32 q = _
    simp only [ratToF32]
    rw [if_neg hq0, if_pos hq]

set_option maxRecDepth 40000 in
/-- Witness for C2: a concrete mixed vector round-trips to its rounded
form, and an overflowing finite value rounds to `+∞`. -/
theorem C2_codec_roundtrip_witness :
    deserializeVector (serializeVector
        [JsNum.finite 1, JsNum.nan, JsNum.posInf, JsNum.finite ((2 : ℚ) ^ 200)]) =
      [JsNum.finite 1, JsNum.nan, JsNum.posInf, JsNum.posInf] ∧
    toFloat32 (JsNum.finite ((2 : ℚ) ^ 200)) = JsNum.posInf := by
  have h := C2_codec_roundtrip
    [JsNum.finite 1, JsNum.nan, JsNum.posInf, JsNum.finite ((2 : ℚ) ^ 200)]
  constructor
  · rw [h.1]
    with_unfolding_all decide
  · have h2 := h.2.2.2.2.2 ((2 : ℚ) ^ 200) (by with_unfolding_all decide)
    rw [h2]
    with_unfolding_all decide

/-- C3: the encoder emits exactly 4 bytes of little-endian IEEE-754 single
precision per input element, concatenated in input order (so an empty
input gives an empty byte sequence and the output length is `4·n`), and
the decoder returns exactly `⌊byteLength / 4⌋` elements, implicitly
truncating a trailing remainder. -/
theorem C3_codec_byte_layout :
    (∀ v : List JsNum, (serializeVector v).length = 4 * v.length) ∧
    serializeVector [] = [] ∧
    (∀ (x : JsNum) (v : List JsNum),
      serializeVector (x :: v) = bytesLE4 (f32BitsOfJs x) ++ serializeVector v) ∧
    (∀ x : JsNum, (bytesLE4 (f32BitsOfJs x)).length = 4 ∧
      (∀ b ∈ bytesLE4 (f32BitsOfJs x), b < 256) ∧
      leVal4 (bytesLE4 (f32BitsOfJs x)) = f32BitsOfJs x) ∧
    (∀ bs : List ℕ, (deserializeVector bs).length = bs.length / 4) ∧
    (∀ bs : List ℕ, deserializeVector bs = deserializeVector (bs.take (4 * (bs.length / 4)))) :=
  ⟨serializeVector_length, rfl, fun _ _ => rfl, bytesLE4_spec,
    deserializeVector_length, deserializeVector_truncates⟩

set_option maxRecDepth 40000 in
/-- Witness for C3 on concrete inputs, including a 5-byte input whose
trailing byte is dropped. -/
theorem C3_codec_byte_layout_witness :
    (serializeVector [JsNum.finite 1, JsNum.finite 0]).length = 4 * 2 ∧
    (deserializeVector [0, 0, 128, 63, 9]).length = 1 ∧
    deserializeVector [0, 0, 128, 63, 9] =
      deserializeVector ([0, 0, 128, 63, 9].take (4 * ([0, 0, 128, 63, 9].length / 4))) ∧
    (∀ b ∈ bytesLE4 (f32BitsOfJs (JsNum.finite 1)), b < 256) := by
  refine ⟨C3_codec_byte_layout.1 [JsNum.finite 1, JsNum.finite 0],
    C3_codec_byte_layout.2.2.2.2.1 [0, 0, 128, 63, 9],
    C3_codec_byte_layout.2.2.2.2.2 [0, 0, 128, 63, 9],
    (C3_codec_byte_layout.2.2.2.1 (JsNum.finite 1)).2.1⟩

end DrizzleSqliteVec
